import Mathlib

/-!
Verification development for the reddito repository (src/fetch.py, src/merge.py).
The definitions below are a shallow embedding of the program: pure Lean
functions mirror the Python functions statement by statement, the browser
(rendering surface) and the filesystem are passed in explicitly as data,
and a statement that can raise is modelled by an Option / Except result or
by an explicit early return that leaves the state unchanged.
-/

namespace Reddito

/-! ## JSON values (inputs of merge.py) -/

/-- JSON values as produced by parsing a persisted item file (json.load). -/
inductive JValue where
  | jnull : JValue
  | jbool : Bool → JValue
  | jnum : Int → JValue
  | jstr : String → JValue
  | jarr : List JValue → JValue
  | jobj : List (String × JValue) → JValue

/-- Single quote character, used by the Python textual representation of strings. -/
def squote : String := String.singleton (Char.ofNat 39)

/-- Python str.strip on a string: drop leading and trailing whitespace.
Implemented by structural recursion so that concrete instances reduce. -/
def py_strip (s : String) : String :=
  String.mk (((s.data.dropWhile Char.isWhitespace).reverse.dropWhile
    Char.isWhitespace).reverse)

/-- Escape a string for JSON serialization (backslash and double quote). -/
def jsonEscape (s : String) : String :=
  String.join (s.toList.map (fun c =>
    if c = Char.ofNat 92 then ("\\\\")
    else if c = Char.ofNat 34 then ("\\\"")
    else String.singleton c))

mutual

/-- Serialization of a JSON value as json.dumps produces it
(default separators, ensure_ascii disabled). -/
def jsonDumps : JValue → String
  | JValue.jnull => "null"
  | JValue.jbool true => "true"
  | JValue.jbool false => "false"
  | JValue.jnum n => toString n
  | JValue.jstr s => "\"" ++ jsonEscape s ++ "\""
  | JValue.jarr xs => "[" ++ jsonDumpsList xs ++ "]"
  | JValue.jobj fs => "\x7b" ++ jsonDumpsObj fs ++ "\x7d"

/-- Comma separated serialization of the elements of a JSON array. -/
def jsonDumpsList : List JValue → String
  | [] => ""
  | [x] => jsonDumps x
  | x :: y :: xs => jsonDumps x ++ ", " ++ jsonDumpsList (y :: xs)

/-- Comma separated serialization of the fields of a JSON object. -/
def jsonDumpsObj : List (String × JValue) → String
  | [] => ""
  | [kv] => "\"" ++ jsonEscape kv.1 ++ "\": " ++ jsonDumps kv.2
  | kv :: kv2 :: fs =>
    "\"" ++ jsonEscape kv.1 ++ "\": " ++ jsonDumps kv.2 ++ ", " ++ jsonDumpsObj (kv2 :: fs)

end

mutual

/-- Python repr of a parsed JSON value (used inside containers by str). -/
def pyRepr : JValue → String
  | JValue.jnull => "None"
  | JValue.jbool true => "True"
  | JValue.jbool false => "False"
  | JValue.jnum n => toString n
  | JValue.jstr s => squote ++ s ++ squote
  | JValue.jarr xs => "[" ++ pyReprList xs ++ "]"
  | JValue.jobj fs => "\x7b" ++ pyReprObj fs ++ "\x7d"

/-- Comma separated Python repr of the elements of a list. -/
def pyReprList : List JValue → String
  | [] => ""
  | [x] => pyRepr x
  | x :: y :: xs => pyRepr x ++ ", " ++ pyReprList (y :: xs)

/-- Comma separated Python repr of the fields of a dict. -/
def pyReprObj : List (String × JValue) → String
  | [] => ""
  | [kv] => squote ++ kv.1 ++ squote ++ ": " ++ pyRepr kv.2
  | kv :: kv2 :: fs =>
    squote ++ kv.1 ++ squote ++ ": " ++ pyRepr kv.2 ++ ", " ++ pyReprObj (kv2 :: fs)

end

/-- Python str of a parsed JSON value: the text itself for a string,
its repr for every other value. -/
def pyStr : JValue → String
  | JValue.jstr s => s
  | JValue.jnull => pyRepr JValue.jnull
  | JValue.jbool b => pyRepr (JValue.jbool b)
  | JValue.jnum n => pyRepr (JValue.jnum n)
  | JValue.jarr xs => pyRepr (JValue.jarr xs)
  | JValue.jobj fs => pyRepr (JValue.jobj fs)

/-! ## merge.py : RedditDataMerger -/

/-- Embedding of RedditDataMerger._handle_null_value.  The Python default
parameter is always supplied as the empty string by its only caller, so it
is made explicit here. -/
def handle_null_value (value : JValue) (dflt : String) : String :=
  match value with
  | JValue.jnull => dflt
  | JValue.jstr s => if py_strip s = "" then dflt else py_strip s
  | JValue.jarr xs => if xs.length = 0 then dflt else pyStr (JValue.jarr xs)
  | JValue.jobj fs => if fs.length = 0 then dflt else pyStr (JValue.jobj fs)
  | JValue.jbool b => pyStr (JValue.jbool b)
  | JValue.jnum n => pyStr (JValue.jnum n)

/-- Embedding of RedditDataMerger._comments_to_json_string.  The result is
none when the Python call raises (len applied to a value with no length:
a number or True); such an exception escapes the function, because its
try block only protects json.dumps. -/
def comments_to_json_string (comments : JValue) : Option String :=
  match comments with
  | JValue.jnull => some ("[]")
  | JValue.jarr xs => if xs.length = 0 then some ("[]") else some (jsonDumps (JValue.jarr xs))
  | JValue.jobj fs => if fs.length = 0 then some ("[]") else some (jsonDumps (JValue.jobj fs))
  | JValue.jstr s => if s.length = 0 then some ("[]") else some (jsonDumps (JValue.jstr s))
  | JValue.jbool b => if b then none else some ("[]")
  | JValue.jnum n => if n = 0 then some ("[]") else none

/-- Embedding of Python dict.get with default None on a parsed JSON object. -/
def jget (fields : List (String × JValue)) (key : String) : JValue :=
  match fields.find? (fun kv => kv.1 = key) with
  | some kv => kv.2
  | none => JValue.jnull

/-- One flattened output row of merge.py. -/
structure FlatRecord where
  auto_id : Nat
  category : String
  title : String
  description : String
  votes : String
  comments : String
  url : String

/-- Embedding of RedditDataMerger._process_json_file after json.load
succeeded: builds the flattened record from the parsed object, or none when
building it raises (which the caller logs and skips). -/
def process_json_file (fields : List (String × JValue)) (autoId : Nat)
    (category : String) : Option FlatRecord :=
  match comments_to_json_string (jget fields ("comments")) with
  | none => none
  | some cstr =>
    some ⟨autoId, category,
      handle_null_value (jget fields ("title")) "",
      handle_null_value (jget fields ("description")) "",
      handle_null_value (jget fields ("votes")) "",
      cstr,
      handle_null_value (jget fields ("url")) ""⟩

/-- Exit code of merge.py main: run() returns False when merge_data found
no records or when write_csv failed, and main maps False to 1, True to 0. -/
def merge_main_exit (totalRecords : Nat) (writeOk : Bool) : Int :=
  if totalRecords = 0 then 1 else if writeOk then 0 else 1

/-! ## fetch.py : comment tree extraction -/

/-- One node of the extracted reply tree: text, score signal, children. -/
inductive CommentNode where
  | mk : Option String → Option String → List CommentNode → CommentNode

/-- Text of an extracted comment node. -/
def CommentNode.text : CommentNode → Option String
  | CommentNode.mk t _ _ => t

/-- Score signal of an extracted comment node. -/
def CommentNode.votes : CommentNode → Option String
  | CommentNode.mk _ v _ =>  v

/-- Child list of an extracted comment node. -/
def CommentNode.replies : CommentNode → List CommentNode
  | CommentNode.mk _ _ rs => rs

/-- One rendered comment element as the rendering surface exposes it:
whether its own extraction throws, the comment body (paragraph texts and
raw text) when the body element is present, the vote element (number
attribute and text) when present, and the directly nested comment
elements. -/
inductive CElem where
  | mk : Bool → Option (List String × String) → Option (Option String × String) →
      List CElem → CElem

/-- Whether extracting this element throws. -/
def CElem.fails : CElem → Bool
  | CElem.mk f _ _ _ => f

/-- The body element of this comment, if present. -/
def CElem.body : CElem → Option (List String × String)
  | CElem.mk _ b _ _ => b

/-- The vote element of this comment, if present. -/
def CElem.votesEl : CElem → Option (Option String × String)
  | CElem.mk _ _ v _ => v

/-- The directly nested comment elements. -/
def CElem.children : CElem → List CElem
  | CElem.mk _ _ _ ch => ch

/-- Join of paragraph texts: strip each, drop the empty ones, newline
separated (the comprehension used for both post body and comment body). -/
def join_paragraphs (ps : List String) : String :=
  String.intercalate ("\n") ((ps.map py_strip).filter (fun t => t ≠ ""))

/-- Comment text rule: paragraph join, falling back to the element's raw
text when the join is empty; none when div[slot=comment] is absent. -/
def comment_text (body : Option (List String × String)) : Option String :=
  match body with
  | none => none
  | some pr =>
    let t := join_paragraphs pr.1
    some (if t = "" then py_strip pr.2 else t)

/-- Comment votes rule: the number attribute when truthy, else the element
text, stripped; none when the faceplate-number element is absent. -/
def comment_votes (votesEl : Option (Option String × String)) : Option String :=
  match votesEl with
  | none => none
  | some av =>
    let v := match av.1 with
      | some a => if a = "" then av.2 else a
      | none => av.2
    some (py_strip v)

mutual

/-- Embedding of RedditFetcher._extract_single_comment: none when the
element's own extraction throws, otherwise the node with its surviving
children. -/
def extract_single_comment : CElem → Option CommentNode
  | CElem.mk fails body votesEl children =>
    if fails then none
    else some (CommentNode.mk (comment_text body) (comment_votes votesEl)
      (extract_comment_list children))

/-- Embedding of the sibling loop: nodes whose extraction returns none are
dropped, traversal continues with the remaining siblings. -/
def extract_comment_list : List CElem → List CommentNode
  | [] => []
  | c :: cs =>
    match extract_single_comment c with
    | some n => n :: extract_comment_list cs
    | none => extract_comment_list cs

end

/-- The comment tree area of a rendered post page: whether reading the
tree throws (an exception other than absence), and the list of top level
comment elements when the shreddit-comment-tree element is present. -/
structure CommentTreePage where
  readFails : Bool
  root : Option (List CElem)

/-- Embedding of RedditFetcher.extract_comments: empty list when the tree
element is absent or reading it fails, otherwise the surviving top level
nodes. -/
def extract_comments (t : CommentTreePage) : List CommentNode :=
  if t.readFails then []
  else
    match t.root with
    | none => []
    | some elems => extract_comment_list elems

/-! ## fetch.py : vote extraction strategies -/

/-- The shreddit-post element of a rendered post page: its inner
faceplate-number element (text and number attribute) when present, and its
score attribute. -/
structure SPost where
  fn : Option (String × Option String)
  score : Option String

/-- The vote related portion of a rendered post page: whether an
unexpected exception (not a simple element absence) interrupts the vote
extraction block, the seeker-post-info-row faceplate-number element (text
and number attribute) when present, and the shreddit-post element when
present. -/
structure VotesPage where
  unexpectedErr : Bool
  seeker : Option (String × Option String)
  shredditPost : Option SPost

/-- Embedding of the vote extraction block of extract_post_data.
Method 1 reads the seeker-post-info-row faceplate-number; only when that
element is absent, Method 2 reads the faceplate-number inside
shreddit-post; only when that is absent, Method 3 reads shreddit-post's
score attribute.  An unexpected exception anywhere in the block is caught
by the outer handler, which falls back to the preview value collected
during discovery. -/
def extract_votes (v : VotesPage) (preview : Option String) : Option String :=
  if v.unexpectedErr then preview
  else
    match v.seeker with
    | some ta => if py_strip ta.1 ≠ "" then some (py_strip ta.1) else ta.2
    | none =>
      match v.shredditPost with
      | some sp =>
        match sp.fn with
        | some ta => if py_strip ta.1 ≠ "" then some (py_strip ta.1) else ta.2
        | none => sp.score
      | none => none

/-! ## fetch.py : post extraction -/

/-- The extracted record of one post (post_data in the source).
The id field is added later by save_post. -/
structure PostRecord where
  url : String
  hash : String
  scraped_at : String
  title : Option String
  description : Option String
  votes : Option String
  comments : List CommentNode
  id : Option Nat

/-- One rendered post page: whether opening or reading the page fails
outright, the title element text when present, the body paragraph texts
when the text-body element is present, the vote related elements, and the
comment tree area. -/
structure PostPage where
  loadFails : Bool
  title : Option String
  body : Option (List String)
  votes : VotesPage
  comments : CommentTreePage

/-- Embedding of RedditFetcher.extract_post_data: none when the page
cannot be loaded or read (the outer exception handler), otherwise the
record with each field independently best effort. -/
def extract_post_data (url : String) (hashFn : String → String) (now : String)
    (page : PostPage) (votes_preview : Option String) : Option PostRecord :=
  if page.loadFails then none
  else
    some ⟨url, hashFn url, now,
      page.title.map py_strip,
      page.body.map join_paragraphs,
      extract_votes page.votes votes_preview,
      extract_comments page.comments,
      none⟩

/-! ## fetch.py : discovery loop -/

/-- One entry of the collected link list:
the dict with url and votes_preview built in collect_post_links. -/
structure LinkEntry where
  url : String
  votes_preview : Option String
deriving DecidableEq

/-- The infinite scroll listing as the discovery loop observes it:
the container link reads visible after p scroll cycles (none when the read
of a container throws or its href is missing), whether the page height
changes when scrolling from that state, and whether the whole loop body of
iteration a throws before reading containers. -/
structure ListingSurface where
  containers : Nat → List (Option String)
  heightChanged : Nat → Bool
  iterFails : Nat → Bool

/-- Embedding of the inner container loop of collect_post_links: walk the
currently visible containers, skip unreadable ones, skip links already
seen this run and links whose hash is already in the collected hash set,
append the rest, and break as soon as the target count is reached. -/
def process_containers (hashFn : String → String) (collected_hashes : List String)
    (count : Nat) :
    List (Option String) → List LinkEntry → List String → List LinkEntry × List String
  | [], collected, seen => (collected, seen)
  | none :: rest, collected, seen =>
    process_containers hashFn collected_hashes count rest collected seen
  | some link :: rest, collected, seen =>
    if link ≠ "" ∧ link ∉ seen then
      if hashFn link ∉ collected_hashes then
        let collected2 := collected ++ [⟨link, none⟩]
        let seen2 := seen ++ [link]
        if count ≤ collected2.length then (collected2, seen2)
        else process_containers hashFn collected_hashes count rest collected2 seen2
      else process_containers hashFn collected_hashes count rest collected seen
    else process_containers hashFn collected_hashes count rest collected seen

/-- The links of a container snapshot that the container loop would newly
accept, in encounter order: readable, nonempty, not yet seen this run, and
with a hash outside the collected hash set. -/
def fresh_links (hashFn : String → String) (collected_hashes : List String) :
    List (Option String) → List String → List String
  | [], _ => []
  | none :: rest, seen => fresh_links hashFn collected_hashes rest seen
  | some link :: rest, seen =>
    if link ≠ "" ∧ link ∉ seen then
      if hashFn link ∉ collected_hashes then
        link :: fresh_links hashFn collected_hashes rest (seen ++ [link])
      else fresh_links hashFn collected_hashes rest seen
    else fresh_links hashFn collected_hashes rest seen

/-- Embedding of the while loop of collect_post_links.  The fuel is the
number of scroll attempts still allowed (max_scroll_attempts minus
scroll_attempts); pageIdx counts the scroll cycles performed so far and
selects the current container snapshot; attempts mirrors scroll_attempts.
An iteration whose body throws (iterFails) increments the attempt counter
and retries without scrolling, exactly like the except branch of the
source.  The result is the collected list, the number of scroll cycles
performed, and the final attempt counter. -/
def collect_loop (s : ListingSurface) (hashFn : String → String)
    (collected_hashes : List String) (count : Nat) :
    Nat → Nat → Nat → List LinkEntry → List String → List LinkEntry × Nat × Nat
  | 0, pageIdx, attempts, collected, _ => (collected, pageIdx, attempts)
  | fuel+1, pageIdx, attempts, collected, seen =>
    if count ≤ collected.length then (collected, pageIdx, attempts)
    else if s.iterFails attempts then
      collect_loop s hashFn collected_hashes count fuel pageIdx (attempts+1) collected seen
    else
      let r := process_containers hashFn collected_hashes count
        (s.containers pageIdx) collected seen
      if count ≤ r.1.length then (r.1, pageIdx, attempts)
      else if s.heightChanged pageIdx then
        collect_loop s hashFn collected_hashes count fuel (pageIdx+1) (attempts+1) r.1 r.2
      else (r.1, pageIdx+1, attempts+1)

/-- Embedding of RedditFetcher.collect_post_links: run the loop with the
50 cycle cap from an empty state and return the first count entries
together with the number of scroll cycles performed and the final attempt
counter. -/
def collect_post_links (s : ListingSurface) (hashFn : String → String)
    (collected_hashes : List String) (count : Nat) : List LinkEntry × Nat × Nat :=
  let r := collect_loop s hashFn collected_hashes count 50 0 0 [] []
  (r.1.take count, r.2.1, r.2.2)

/-! ## fetch.py : identity and dedup store, item store writer -/

/-- The fetcher's per scope state: the in-memory counter and hash set, the
item files on disk, and the two tracker files (none models a missing
file or a file without the expected key). -/
structure StoreState where
  next_id : Nat
  collected_hashes : List String
  files : List (Nat × PostRecord)
  disk_next_id : Option Nat
  disk_hashes : Option (List String)

/-- Embedding of RedditFetcher._load_next_id: the persisted value, or 1
when the tracker file is missing or has no next_id key. -/
def load_next_id (idTracker : Option Nat) : Nat := idTracker.getD 1

/-- Embedding of RedditFetcher._load_collected_hashes: the persisted
hashes, or the empty set when the tracker file is missing. -/
def load_collected_hashes (hashTracker : Option (List String)) : List String :=
  hashTracker.getD []

/-- Embedding of the tracker loading part of _setup_community_dir. -/
def setup_scope (idTracker : Option Nat) (hashTracker : Option (List String))
    (files : List (Nat × PostRecord)) : StoreState :=
  ⟨load_next_id idTracker, load_collected_hashes hashTracker, files, idTracker, hashTracker⟩

/-- Python set add on the hash set (kept as an insertion ordered list). -/
def add_hash (hs : List String) (h : String) : List String :=
  if h ∈ hs then hs else hs ++ [h]

/-- Embedding of RedditFetcher.save_post.  writeOk tells whether the
json.dump of the item file succeeds; when it raises, the function returns
before any tracker mutation, so the state is returned unchanged.  On
success the file is written first, then the fingerprint is recorded, the
counter is incremented, and both trackers are persisted. -/
def save_post (st : StoreState) (post : PostRecord) (writeOk : Bool) :
    StoreState × Except Unit Nat :=
  let post_id := st.next_id
  let post2 : PostRecord := ⟨post.url, post.hash, post.scraped_at, post.title,
    post.description, post.votes, post.comments, some post_id⟩
  if writeOk then
    let files2 := st.files ++ [(post_id, post2)]
    let hashes2 := add_hash st.collected_hashes post.hash
    (⟨post_id + 1, hashes2, files2, some (post_id + 1), some hashes2⟩, Except.ok post_id)
  else
    (st, Except.error ())

/-- A run of consecutive successful item writes against one store state. -/
def run_writes : StoreState → List PostRecord → StoreState × List Nat
  | st, [] => (st, [])
  | st, p :: ps =>
    match save_post st p true with
    | (st2, Except.ok i) =>
      let r := run_writes st2 ps
      (r.1, i :: r.2)
    | (st2, Except.error _) => (st2, [])

/-! ## fetch.py : orchestrator and CLI exit codes -/

/-- How a fetch_posts run ends: the rendering surface failed to start, no
links were discovered, or the per item loop completed with success and
failure counts.  Every one of these paths returns normally to main,
because fetch_posts catches every exception. -/
inductive FetchOutcome where
  | setupFailed : FetchOutcome
  | noLinks : FetchOutcome
  | completed : Nat → Nat → FetchOutcome
deriving DecidableEq

/-- The environment of one fetch_posts run: whether the Chrome driver
starts, the discovered links, and the successive extract_post_data
results for them. -/
structure FetchEnv where
  driverStarts : Bool
  links : List LinkEntry
  extract_results : List (Option PostRecord)

/-- Embedding of RedditFetcher.fetch_posts at the outcome level: setup
failure is caught, an empty link list returns early, otherwise each link's
extraction result is counted as a success or a failure. -/
def fetch_posts_run (env : FetchEnv) : FetchOutcome :=
  if env.driverStarts = false then FetchOutcome.setupFailed
  else if env.links.isEmpty then FetchOutcome.noLinks
  else
    let results := env.extract_results.take env.links.length
    FetchOutcome.completed (results.countP (fun r => r.isSome))
      (results.countP (fun r => r.isNone))

/-- Exit code of fetch.py main: 1 on a non-positive count, otherwise the
run is performed and 0 is returned whatever its outcome. -/
def fetch_main_exit (count : Int) (env : FetchEnv) : Int :=
  if count ≤ 0 then 1
  else
    match fetch_posts_run env with
    | _ => 0

end Reddito

namespace Reddito

/-! ## Theorems -/

/-- C1: write-then-commit ordering in save_post.  If the item file write
raises, the entire store state (in-memory and on-disk fingerprints,
counter) is unchanged and the same id is assigned by the next attempt; on
success the file is written with the current id, and only then is the
fingerprint recorded, the counter advanced and both trackers persisted. -/
theorem C1_write_then_commit (st : StoreState) (post : PostRecord) :
    save_post st post false = (st, Except.error ())
  ∧ (save_post st post true).2 = Except.ok st.next_id
  ∧ (save_post st post true).1.next_id = st.next_id + 1
  ∧ (save_post st post true).1.collected_hashes = add_hash st.collected_hashes post.hash
  ∧ (save_post st post true).1.disk_next_id = some (st.next_id + 1)
  ∧ (save_post st post true).1.disk_hashes = some (add_hash st.collected_hashes post.hash)
  ∧ (save_post st post true).1.files
      = st.files ++ [(st.next_id, ⟨post.url, post.hash, post.scraped_at, post.title,
          post.description, post.votes, post.comments, some st.next_id⟩)]
  ∧ (save_post (save_post st post false).1 post true).2 = Except.ok st.next_id :=
  ⟨rfl, rfl, rfl, rfl, rfl, rfl, rfl, rfl⟩

/-- C4 counterexample: with every vote strategy's element absent (and no
unexpected exception) the extracted score is null, not the pre-observed
preview, contradicting the claim that when all strategies fail the result
falls back to the supplied preview value. -/
theorem C4_counterexample :
    extract_votes ⟨false, none, none⟩ (some ("42")) = none
  ∧ extract_votes ⟨false, none, none⟩ (some ("42")) ≠ some ("42") :=
  ⟨rfl, by decide⟩

/-- C4 amended: the vote strategies are tried in order, with a later
strategy attempted only when the earlier strategy's element is absent; a
found element with non-empty stripped text wins with that text, a found
element with empty text yields its number attribute without trying the
next strategy; when every strategy's element is absent the result is null
regardless of the preview, and the preview is used exactly when an
unexpected exception interrupts the vote extraction block. -/
theorem C4_amended_vote_strategies (v : VotesPage) (preview : Option String) :
    (v.unexpectedErr = true → extract_votes v preview = preview)
  ∧ (∀ t a, v.unexpectedErr = false → v.seeker = some (t, a) → py_strip t ≠ "" →
      extract_votes v preview = some (py_strip t))
  ∧ (∀ t a, v.unexpectedErr = false → v.seeker = some (t, a) → py_strip t = "" →
      extract_votes v preview = a)
  ∧ (v.unexpectedErr = false → v.seeker = none → v.shredditPost = none →
      extract_votes v preview = none) := by
  refine ⟨fun h => by simp [extract_votes, h], ?_, ?_, ?_⟩
  · intro t a he hs ht
    simp [extract_votes, he, hs, ht]
  · intro t a he hs ht
    simp [extract_votes, he, hs, ht]
  · intro he hs hp
    simp [extract_votes, he, hs, hp]

/-- C4 amended, witness at concrete pages: an unexpected error falls back
to the preview, a non-empty first strategy text wins stripped, an
empty first strategy text yields its attribute even though the preview is
supplied, and all-absent strategies yield null despite a preview. -/
theorem C4_amended_vote_strategies_witness :
    extract_votes ⟨true, none, none⟩ (some ("7")) = some ("7")
  ∧ extract_votes ⟨false, some ((" 12 "), none), none⟩ none = some ("12")
  ∧ extract_votes ⟨false, some (("  "), some ("9")), none⟩ (some ("x")) = some ("9")
  ∧ extract_votes ⟨false, none, none⟩ (some ("x")) = none := by
  refine ⟨(C4_amended_vote_strategies ⟨true, none, none⟩ (some ("7"))).1 rfl, ?_, ?_, ?_⟩
  · have h := (C4_amended_vote_strategies ⟨false, some ((" 12 "), none), none⟩ none).2.1
      (" 12 ") none rfl rfl (by decide)
    exact h.trans (by decide)
  · exact (C4_amended_vote_strategies ⟨false, some (("  "), some ("9")), none⟩
      (some ("x"))).2.2.1 ("  ") (some ("9")) rfl rfl (by decide)
  · exact (C4_amended_vote_strategies ⟨false, none, none⟩ (some ("x"))).2.2.2 rfl rfl rfl

/-- C5 counterexample: when the rendering surface fails to start, the
fetch run ends as a setup failure, yet the fetch CLI still exits 0,
contradicting the claim that both operations exit non-zero on an
unrecoverable setup failure. -/
theorem C5_counterexample :
    fetch_posts_run ⟨false, [], []⟩ = FetchOutcome.setupFailed
  ∧ fetch_main_exit 5 ⟨false, [], []⟩ = 0 :=
  ⟨rfl, rfl⟩

/-- C5 amended: a usage error (non-positive count) makes the fetch CLI
exit 1, and the merge CLI exits 1 when nothing was merged or the output
write fails and 0 on success; but for any positive count the fetch CLI
exits 0 whatever happens in the run, including a rendering surface that
fails to start and any number of per-item extraction failures. -/
theorem C5_amended_exit_codes (count : Int) (env : FetchEnv) (total : Nat)
    (writeOk : Bool) :
    (count ≤ 0 → fetch_main_exit count env = 1)
  ∧ (0 < count → fetch_main_exit count env = 0)
  ∧ merge_main_exit 0 writeOk = 1
  ∧ (0 < total → merge_main_exit total true = 0)
  ∧ merge_main_exit total false = 1 := by
  refine ⟨fun h => by simp [fetch_main_exit, h], ?_, by simp [merge_main_exit], ?_, ?_⟩
  · intro h
    have h2 : ¬ count ≤ 0 := by omega
    simp [fetch_main_exit, h2]
  · intro h
    have h2 : total ≠ 0 := by omega
    simp [merge_main_exit, h2]
  · by_cases h : total = 0 <;> simp [merge_main_exit, h]

/-- C5 amended, witness: usage error exits 1; a failed-setup run with a
positive count exits 0; merge exits 1 with nothing merged, 0 on a
successful write of 2 records, 1 on a failed write. -/
theorem C5_amended_exit_codes_witness :
    fetch_main_exit (-1) ⟨true, [], []⟩ = 1
  ∧ fetch_main_exit 3 ⟨false, [], []⟩ = 0
  ∧ merge_main_exit 0 true = 1
  ∧ merge_main_exit 2 true = 0
  ∧ merge_main_exit 2 false = 1 := by
  have ha := C5_amended_exit_codes (-1) ⟨true, [], []⟩ 2 true
  have hb := C5_amended_exit_codes 3 ⟨false, [], []⟩ 2 false
  exact ⟨ha.1 (by decide), hb.2.1 (by decide), ha.2.2.1, ha.2.2.2.1 (by decide),
    hb.2.2.2.2⟩

/-- C6: reply-tree extraction never yields null or an error: a missing
tree element or a failing tree read yields the empty list; a node whose
own extraction throws is dropped from its parent's child list while its
siblings are still traversed; and every surviving node carries the
(possibly empty) child list built from its children. -/
theorem C6_comment_tree_errors :
    (∀ t : CommentTreePage, t.readFails = true → extract_comments t = [])
  ∧ (∀ t : CommentTreePage, t.root = none → extract_comments t = [])
  ∧ (∀ (pre : List CElem) (c : CElem) (post : List CElem), c.fails = true →
      extract_comment_list (pre ++ c :: post)
        = extract_comment_list pre ++ extract_comment_list post)
  ∧ (∀ (e : CElem) (n : CommentNode), extract_single_comment e = some n →
      e.fails = false ∧ n.replies = extract_comment_list e.children) := by
  have hdrop : ∀ (c : CElem), c.fails = true → extract_single_comment c = none := by
    intro c hc
    cases c with
    | mk f b v ch =>
      simp only [CElem.fails] at hc
      simp [extract_single_comment, hc]
  refine ⟨?_, ?_, ?_, ?_⟩
  · intro t h; simp [extract_comments, h]
  · intro t h
    by_cases hf : t.readFails <;> simp [extract_comments, hf, h]
  · intro pre c post hc
    induction pre with
    | nil => simp [extract_comment_list, hdrop c hc]
    | cons p pre ih =>
      cases h : extract_single_comment p <;>
        simp [extract_comment_list, h, ih]
  · intro e n h
    cases e with
    | mk f b v ch =>
      cases f with
      | true => simp [extract_single_comment] at h
      | false =>
        simp only [extract_single_comment, Bool.false_eq_true, if_false,
          Option.some.injEq] at h
        subst h
        exact ⟨rfl, rfl⟩

/-- C6 witness: a failing tree read and a missing tree element both yield
the empty list; a failing middle sibling is dropped while both outer
siblings survive; a surviving leaf node reports the empty child list. -/
theorem C6_comment_tree_errors_witness :
    extract_comments ⟨true, some [CElem.mk false none none []]⟩ = []
  ∧ extract_comments ⟨false, none⟩ = []
  ∧ extract_comment_list ([CElem.mk false none none []]
        ++ (CElem.mk true none none []) :: [CElem.mk false none none []])
      = extract_comment_list [CElem.mk false none none []]
        ++ extract_comment_list [CElem.mk false none none []]
  ∧ ((CElem.mk false none none []).fails = false
      ∧ (CommentNode.mk none none []).replies
          = extract_comment_list (CElem.mk false none none []).children) := by
  refine ⟨C6_comment_tree_errors.1 _ rfl, C6_comment_tree_errors.2.1 _ rfl,
    C6_comment_tree_errors.2.2.1 _ _ _ rfl, C6_comment_tree_errors.2.2.2 _ _ rfl⟩

/-- C7: once the post page loads, absence of an individual field is not a
failure: a missing title element gives a null title, a missing body
element gives a null description, absent vote elements give a null score,
and the record is still produced with url, fingerprint and timestamp
populated; the whole call yields none exactly when the page load/read
fails. -/
theorem C7_graceful_field_absence (url : String) (hashFn : String → String)
    (now : String) (page : PostPage) (preview : Option String) :
    (page.loadFails = true → extract_post_data url hashFn now page preview = none)
  ∧ (page.loadFails = false →
      ∃ r, extract_post_data url hashFn now page preview = some r
        ∧ r.url = url ∧ r.hash = hashFn url ∧ r.scraped_at = now
        ∧ (page.title = none → r.title = none)
        ∧ (page.body = none → r.description = none)
        ∧ (page.votes.unexpectedErr = false → page.votes.seeker = none →
            page.votes.shredditPost = none → r.votes = none)) := by
  refine ⟨fun h => by simp [extract_post_data, h], fun h => ?_⟩
  refine ⟨⟨url, hashFn url, now, page.title.map py_strip,
    page.body.map join_paragraphs, extract_votes page.votes preview,
    extract_comments page.comments, none⟩,
    by simp [extract_post_data, h], rfl, rfl, rfl, ?_, ?_, ?_⟩
  · intro ht; simp [ht]
  · intro hb; simp [hb]
  · intro h1 h2 h3
    exact (C4_amended_vote_strategies page.votes preview).2.2.2 h1 h2 h3

/-- C7 witness: a page that fails to load yields none; a loaded page with
every optional element absent still yields a record with null title,
description and score and populated url, fingerprint and timestamp. -/
theorem C7_graceful_field_absence_witness :
    extract_post_data ("u") (fun x => x ++ x) ("t")
      ⟨true, none, none, ⟨false, none, none⟩, ⟨false, none⟩⟩ none = none
  ∧ ∃ r, extract_post_data ("u") (fun x => x ++ x) ("t")
      ⟨false, none, none, ⟨false, none, none⟩, ⟨false, none⟩⟩ none = some r
      ∧ r.url = ("u") ∧ r.hash = ("uu") ∧ r.scraped_at = ("t")
      ∧ r.title = none ∧ r.description = none ∧ r.votes = none := by
  constructor
  · exact (C7_graceful_field_absence ("u") (fun x => x ++ x) ("t")
      ⟨true, none, none, ⟨false, none, none⟩, ⟨false, none⟩⟩ none).1 rfl
  · obtain ⟨r, h1, h2, h3, h4, h5, h6, h7⟩ :=
      (C7_graceful_field_absence ("u") (fun x => x ++ x) ("t")
        ⟨false, none, none, ⟨false, none, none⟩, ⟨false, none⟩⟩ none).2 rfl
    exact ⟨r, h1, h2, h3, h4, h5 rfl, h6 rfl, h7 rfl rfl rfl⟩

/-- C8 counterexample: a string field with surrounding whitespace is
flattened to its stripped text, not to its textual representation, so the
claim's clause that any non-defaulted value becomes its textual
representation fails on the value " a ". -/
theorem C8_counterexample :
    handle_null_value (JValue.jstr (" a ")) "" = "a"
  ∧ pyStr (JValue.jstr (" a ")) = " a "
  ∧ handle_null_value (JValue.jstr (" a ")) "" ≠ pyStr (JValue.jstr (" a ")) :=
  ⟨rfl, rfl, by decide⟩

/-- C8 amended: the flattener defaults null, empty and whitespace-only
strings, and null or empty lists and mappings, to the empty string, with
the comment-tree field becoming the literal string of an empty JSON array
when null or empty; any other string becomes its whitespace-stripped
content, and any other value its textual representation; in particular an
item with votes null, comments empty and description empty flattens to
empty votes, empty-array comments and empty description. -/
theorem C8_amended_flattener_defaulting :
    (∀ d, handle_null_value JValue.jnull d = d)
  ∧ (∀ s d, py_strip s = "" → handle_null_value (JValue.jstr s) d = d)
  ∧ (∀ s d, py_strip s ≠ "" → handle_null_value (JValue.jstr s) d = py_strip s)
  ∧ (∀ d, handle_null_value (JValue.jarr []) d = d)
  ∧ (∀ d, handle_null_value (JValue.jobj []) d = d)
  ∧ (∀ x xs d, handle_null_value (JValue.jarr (x :: xs)) d = pyStr (JValue.jarr (x :: xs)))
  ∧ (∀ kv fs d, handle_null_value (JValue.jobj (kv :: fs)) d = pyStr (JValue.jobj (kv :: fs)))
  ∧ (∀ n d, handle_null_value (JValue.jnum n) d = pyStr (JValue.jnum n))
  ∧ (∀ b d, handle_null_value (JValue.jbool b) d = pyStr (JValue.jbool b))
  ∧ comments_to_json_string JValue.jnull = some ("[]")
  ∧ comments_to_json_string (JValue.jarr []) = some ("[]")
  ∧ (∀ fields autoId cat,
      jget fields ("votes") = JValue.jnull →
      jget fields ("comments") = JValue.jarr [] →
      jget fields ("description") = JValue.jstr "" →
      ∃ r, process_json_file fields autoId cat = some r
        ∧ r.votes = "" ∧ r.comments = ("[]") ∧ r.description = "") := by
  refine ⟨fun d => rfl, ?_, ?_, fun d => rfl, fun d => rfl, fun x xs d => rfl,
    fun kv fs d => rfl, fun n d => rfl, fun b d => rfl, rfl, rfl, ?_⟩
  · intro s d h; simp [handle_null_value, h]
  · intro s d h; simp [handle_null_value, h]
  · intro fields autoId cat hv hc hd
    refine ⟨⟨autoId, cat, handle_null_value (jget fields ("title")) "", "", "", ("[]"),
      handle_null_value (jget fields ("url")) ""⟩, ?_, rfl, rfl, rfl⟩
    unfold process_json_file
    rw [hc, hv, hd]
    rfl

/-- C8 amended, witness: a record with votes null, comments the empty
array and description the empty string flattens to empty votes, the
literal empty-array string for comments, and empty description. -/
theorem C8_amended_flattener_defaulting_witness :
    handle_null_value JValue.jnull "" = ""
  ∧ handle_null_value (JValue.jstr ("  ")) "" = ""
  ∧ handle_null_value (JValue.jstr (" a ")) "" = "a"
  ∧ ∃ r, process_json_file [(("votes"), JValue.jnull), (("comments"), JValue.jarr []),
        (("description"), JValue.jstr "")] 1 ("cat") = some r
      ∧ r.votes = "" ∧ r.comments = ("[]") ∧ r.description = "" := by
  refine ⟨C8_amended_flattener_defaulting.1 "", ?_, ?_, ?_⟩
  · exact C8_amended_flattener_defaulting.2.1 ("  ") "" (by decide)
  · exact C8_amended_flattener_defaulting.2.2.1 (" a ") "" (by decide)
  · exact C8_amended_flattener_defaulting.2.2.2.2.2.2.2.2.2.2.2
      [(("votes"), JValue.jnull), (("comments"), JValue.jarr []),
        (("description"), JValue.jstr "")] 1 ("cat") rfl rfl rfl

end Reddito

namespace Reddito

/-- One step unfolding of the discovery while loop. -/
theorem collect_loop_succ (s : ListingSurface) (hashFn : String → String)
    (hs : List String) (count fuel pageIdx attempts : Nat)
    (collected : List LinkEntry) (seen : List String) :
    collect_loop s hashFn hs count (fuel+1) pageIdx attempts collected seen
      = if count ≤ collected.length then (collected, pageIdx, attempts)
        else if s.iterFails attempts then
          collect_loop s hashFn hs count fuel pageIdx (attempts+1) collected seen
        else if count ≤ (process_containers hashFn hs count (s.containers pageIdx)
            collected seen).1.length then
          ((process_containers hashFn hs count (s.containers pageIdx) collected seen).1,
            pageIdx, attempts)
        else if s.heightChanged pageIdx then
          collect_loop s hashFn hs count fuel (pageIdx+1) (attempts+1)
            (process_containers hashFn hs count (s.containers pageIdx) collected seen).1
            (process_containers hashFn hs count (s.containers pageIdx) collected seen).2
        else ((process_containers hashFn hs count (s.containers pageIdx) collected seen).1,
          pageIdx+1, attempts+1) := rfl

/-- Links accepted by the container loop are fresh: their hash is outside
the collected hash set and they were not seen before this snapshot. -/
theorem fresh_links_mem (hashFn : String → String) (hs : List String) :
    ∀ (cs : List (Option String)) (seen : List String) (l : String),
      l ∈ fresh_links hashFn hs cs seen → hashFn l ∉ hs ∧ l ∉ seen := by
  intro cs
  induction cs with
  | nil =>
    intro seen l hl
    simp [fresh_links] at hl
  | cons c rest ih =>
    intro seen l hl
    cases c with
    | none =>
      simp only [fresh_links] at hl
      exact ih seen l hl
    | some link =>
      simp only [fresh_links] at hl
      by_cases h1 : link ≠ "" ∧ link ∉ seen
      · rw [if_pos h1] at hl
        by_cases h2 : hashFn link ∉ hs
        · rw [if_pos h2] at hl
          rcases List.mem_cons.mp hl with h | h
          · subst h
            exact ⟨h2, h1.2⟩
          · have h3 := ih (seen ++ [link]) l h
            exact ⟨h3.1, fun hm => h3.2 (List.mem_append_left _ hm)⟩
        · rw [if_neg h2] at hl
          exact ih seen l hl
      · rw [if_neg h1] at hl
        exact ih seen l hl

/-- The container loop never accepts the same link twice in one snapshot. -/
theorem fresh_links_nodup (hashFn : String → String) (hs : List String) :
    ∀ (cs : List (Option String)) (seen : List String),
      (fresh_links hashFn hs cs seen).Nodup := by
  intro cs
  induction cs with
  | nil => intro seen; simp [fresh_links]
  | cons c rest ih =>
    intro seen
    cases c with
    | none =>
      simp only [fresh_links]
      exact ih seen
    | some link =>
      simp only [fresh_links]
      by_cases h1 : link ≠ "" ∧ link ∉ seen
      · rw [if_pos h1]
        by_cases h2 : hashFn link ∉ hs
        · rw [if_pos h2]
          refine List.nodup_cons.mpr ⟨?_, ih (seen ++ [link])⟩
          intro hmem
          exact (fresh_links_mem hashFn hs rest (seen ++ [link]) link hmem).2
            (List.mem_append_right _ (List.mem_singleton.mpr rfl))
        · rw [if_neg h2]
          exact ih seen
      · rw [if_neg h1]
        exact ih seen

/-- Closed form of the container loop: starting from a state where seen
mirrors the collected urls and the target is not yet reached, it appends
exactly the fresh links of the snapshot, truncated at the remaining
quota, and extends seen in step. -/
theorem process_containers_spec (hashFn : String → String) (hs : List String)
    (count : Nat) :
    ∀ (cs : List (Option String)) (collected : List LinkEntry) (seen : List String),
      seen = collected.map LinkEntry.url →
      collected.length < count →
      process_containers hashFn hs count cs collected seen
        = (collected ++ ((fresh_links hashFn hs cs seen).take
              (count - collected.length)).map (fun l => ⟨l, none⟩),
           seen ++ (fresh_links hashFn hs cs seen).take (count - collected.length)) := by
  intro cs
  induction cs with
  | nil =>
    intro collected seen hseen hlen
    simp [process_containers, fresh_links]
  | cons c rest ih =>
    intro collected seen hseen hlen
    cases c with
    | none =>
      simp only [process_containers, fresh_links]
      exact ih collected seen hseen hlen
    | some link =>
      by_cases h1 : link ≠ "" ∧ link ∉ seen
      · by_cases h2 : hashFn link ∉ hs
        · by_cases h3 : count ≤ collected.length + 1
          · have hcnt : count - collected.length = 1 := by omega
            simp [process_containers, fresh_links, h1.1, h1.2, h2, hcnt, h3]
          · have hseen2 : seen ++ [link]
                = (collected ++ [(⟨link, none⟩ : LinkEntry)]).map LinkEntry.url := by
              simp [hseen]
            have hlen2 : (collected ++ [(⟨link, none⟩ : LinkEntry)]).length < count := by
              simp
              omega
            have ihx := ih (collected ++ [(⟨link, none⟩ : LinkEntry)]) (seen ++ [link])
              hseen2 hlen2
            simp [process_containers, fresh_links, h1.1, h1.2, h2, h3]
            rw [ihx]
            have hcnt : count - collected.length = (count - (collected.length + 1)) + 1 := by
              omega
            rw [hcnt, List.take_succ_cons]
            simp [List.append_assoc, List.map_take]
        · have hx : hashFn link ∈ hs := not_not.mp h2
          simp [process_containers, fresh_links, h1.1, h1.2, hx]
          simpa [List.map_take] using ih collected seen hseen hlen
      · simp [process_containers, fresh_links, h1]
        simpa [List.map_take] using ih collected seen hseen hlen


/-- Once the target count is reached, the while loop returns at once:
no further container read, no further scroll, no further attempt. -/
theorem collect_loop_stop (s : ListingSurface) (hashFn : String → String)
    (hs : List String) (count : Nat) :
    ∀ (fuel pageIdx attempts : Nat) (collected : List LinkEntry) (seen : List String),
      count ≤ collected.length →
      collect_loop s hashFn hs count fuel pageIdx attempts collected seen
        = (collected, pageIdx, attempts) := by
  intro fuel
  cases fuel with
  | zero => intro p a collected seen h; rfl
  | succ f =>
    intro p a collected seen h
    rw [collect_loop_succ, if_pos h]

/-- The scroll cycle counter and attempt counter never exceed the
starting values plus the remaining fuel. -/
theorem collect_loop_bounds (s : ListingSurface) (hashFn : String → String)
    (hs : List String) (count : Nat) :
    ∀ (fuel pageIdx attempts : Nat) (collected : List LinkEntry) (seen : List String),
      (collect_loop s hashFn hs count fuel pageIdx attempts collected seen).2.1
          ≤ pageIdx + fuel
      ∧ (collect_loop s hashFn hs count fuel pageIdx attempts collected seen).2.2
          ≤ attempts + fuel := by
  intro fuel
  induction fuel with
  | zero =>
    intro p a collected seen
    simp [collect_loop]
  | succ f ih =>
    intro p a collected seen
    rw [collect_loop_succ]
    by_cases h1 : count ≤ collected.length
    · rw [if_pos h1]
      exact ⟨Nat.le_add_right p (f+1), Nat.le_add_right a (f+1)⟩
    · rw [if_neg h1]
      by_cases h2 : s.iterFails a
      · rw [if_pos h2]
        obtain ⟨b1, b2⟩ := ih p (a+1) collected seen
        exact ⟨by omega, by omega⟩
      · rw [if_neg h2]
        by_cases h3 : count ≤ (process_containers hashFn hs count (s.containers p)
            collected seen).1.length
        · rw [if_pos h3]
          exact ⟨Nat.le_add_right p (f+1), Nat.le_add_right a (f+1)⟩
        · rw [if_neg h3]
          by_cases h4 : s.heightChanged p
          · rw [if_pos h4]
            obtain ⟨b1, b2⟩ := ih (p+1) (a+1)
              (process_containers hashFn hs count (s.containers p) collected seen).1
              (process_containers hashFn hs count (s.containers p) collected seen).2
            exact ⟨by omega, by omega⟩
          · rw [if_neg h4]
            exact ⟨Nat.succ_le_succ (Nat.le_add_right p f),
              Nat.succ_le_succ (Nat.le_add_right a f)⟩

/-- When every iteration throws, the loop burns all its fuel on failed
attempts: nothing is collected, no scroll is performed, and the attempt
counter ends at the cap. -/
theorem collect_loop_allfail (s : ListingSurface) (hashFn : String → String)
    (hs : List String) (count : Nat) (hf : ∀ n, s.iterFails n = true) :
    ∀ (fuel pageIdx attempts : Nat) (collected : List LinkEntry) (seen : List String),
      collected.length < count →
      collect_loop s hashFn hs count fuel pageIdx attempts collected seen
        = (collected, pageIdx, attempts + fuel) := by
  intro fuel
  induction fuel with
  | zero =>
    intro p a collected seen h
    simp [collect_loop]
  | succ f ih =>
    intro p a collected seen h
    rw [collect_loop_succ, if_neg (by omega), if_pos (hf a),
      ih p (a+1) collected seen h]
    have e : a + 1 + f = a + (f + 1) := by omega
    rw [e]

/-- Loop invariant: every collected entry has a hash outside the loaded
fingerprint set and a null votes preview, and the collected urls stay
pairwise distinct. -/
theorem collect_loop_inv (s : ListingSurface) (hashFn : String → String)
    (hs : List String) (count : Nat) :
    ∀ (fuel pageIdx attempts : Nat) (collected : List LinkEntry) (seen : List String),
      seen = collected.map LinkEntry.url →
      (∀ e ∈ collected, hashFn e.url ∉ hs ∧ e.votes_preview = none) →
      (collected.map LinkEntry.url).Nodup →
      (∀ e ∈ (collect_loop s hashFn hs count fuel pageIdx attempts collected seen).1,
          hashFn e.url ∉ hs ∧ e.votes_preview = none)
      ∧ ((collect_loop s hashFn hs count fuel pageIdx attempts collected seen).1.map
            LinkEntry.url).Nodup := by
  intro fuel
  induction fuel with
  | zero =>
    intro p a collected seen hseen hmem hnd
    exact ⟨hmem, hnd⟩
  | succ f ih =>
    intro p a collected seen hseen hmem hnd
    rw [collect_loop_succ]
    by_cases h1 : count ≤ collected.length
    · rw [if_pos h1]
      exact ⟨hmem, hnd⟩
    · rw [if_neg h1]
      by_cases h2 : s.iterFails a
      · rw [if_pos h2]
        exact ih p (a+1) collected seen hseen hmem hnd
      · rw [if_neg h2]
        have hlen : collected.length < count := by omega
        have hpc := process_containers_spec hashFn hs count (s.containers p)
          collected seen hseen hlen
        rw [hpc]
        have hurl : (collected ++ ((fresh_links hashFn hs (s.containers p) seen).take
              (count - collected.length)).map (fun l => (⟨l, none⟩ : LinkEntry))).map
              LinkEntry.url
            = collected.map LinkEntry.url
              ++ (fresh_links hashFn hs (s.containers p) seen).take
                  (count - collected.length) := by
          simp [List.map_map, Function.comp_def, LinkEntry.url]
        have hmem2 : ∀ e ∈ collected ++ ((fresh_links hashFn hs (s.containers p) seen).take
              (count - collected.length)).map (fun l => (⟨l, none⟩ : LinkEntry)),
            hashFn e.url ∉ hs ∧ e.votes_preview = none := by
          intro e he
          rcases List.mem_append.mp he with h | h
          · exact hmem e h
          · rcases List.mem_map.mp h with ⟨l, hl, hel⟩
            subst hel
            have hfl := fresh_links_mem hashFn hs (s.containers p) seen l
              (List.take_subset _ _ hl)
            exact ⟨hfl.1, rfl⟩
        have hnd2 : ((collected ++ ((fresh_links hashFn hs (s.containers p) seen).take
              (count - collected.length)).map (fun l => (⟨l, none⟩ : LinkEntry))).map
              LinkEntry.url).Nodup := by
          rw [hurl]
          refine List.nodup_append.mpr ⟨hnd, ?_, ?_⟩
          · exact List.Nodup.sublist (List.take_sublist _ _)
              (fresh_links_nodup hashFn hs (s.containers p) seen)
          · intro x hx hx2
            exact (fresh_links_mem hashFn hs (s.containers p) seen x
              (List.take_subset _ _ hx2)).2 (hseen ▸ hx)
        have hseen2 : seen ++ (fresh_links hashFn hs (s.containers p) seen).take
              (count - collected.length)
            = (collected ++ ((fresh_links hashFn hs (s.containers p) seen).take
                (count - collected.length)).map (fun l => (⟨l, none⟩ : LinkEntry))).map
                LinkEntry.url := by
          rw [hurl, hseen]
        by_cases h3 : count ≤ (collected ++ ((fresh_links hashFn hs (s.containers p)
            seen).take (count - collected.length)).map
            (fun l => (⟨l, none⟩ : LinkEntry))).length
        · rw [if_pos h3]
          exact ⟨hmem2, hnd2⟩
        · rw [if_neg h3]
          by_cases h4 : s.heightChanged p
          · rw [if_pos h4]
            exact ih (p+1) (a+1) _ _ hseen2 hmem2 hnd2
          · rw [if_neg h4]
            exact ⟨hmem2, hnd2⟩

end Reddito

namespace Reddito

set_option maxHeartbeats 1000000

/-- C3: discovery returns at most N links, all with fingerprints outside
the loaded set, with no duplicate urls within the run; the loop stops
immediately once N links are accumulated, performing no further scroll
cycle; and when at least N fresh links are visible before any scroll, the
result is exactly the first N fresh links in encounter order with zero
scroll cycles performed. -/
theorem C3_discovery_loop (s : ListingSurface) (hashFn : String → String)
    (hs : List String) (count : Nat) :
    (collect_post_links s hashFn hs count).1.length ≤ count
  ∧ (∀ e ∈ (collect_post_links s hashFn hs count).1, hashFn e.url ∉ hs)
  ∧ ((collect_post_links s hashFn hs count).1.map LinkEntry.url).Nodup
  ∧ (∀ (fuel pageIdx attempts : Nat) (collected : List LinkEntry) (seen : List String),
      count ≤ collected.length →
      collect_loop s hashFn hs count fuel pageIdx attempts collected seen
        = (collected, pageIdx, attempts))
  ∧ ((∀ n, s.iterFails n = false) →
      count ≤ (fresh_links hashFn hs (s.containers 0) []).length →
      collect_post_links s hashFn hs count
        = (((fresh_links hashFn hs (s.containers 0) []).take count).map
            (fun l => ⟨l, none⟩), 0, 0)) := by
  have hinv := collect_loop_inv s hashFn hs count 50 0 0 [] [] rfl
    (by intro e he; simp at he) (by simp)
  refine ⟨?_, ?_, ?_, collect_loop_stop s hashFn hs count, ?_⟩
  · simp only [collect_post_links]
    simp [Nat.min_le_left]
  · intro e he
    simp only [collect_post_links] at he
    exact (hinv.1 e (List.take_subset _ _ he)).1
  · simp only [collect_post_links]
    rw [List.map_take]
    exact List.Nodup.sublist (List.take_sublist _ _) hinv.2
  · intro hoff hcnt
    by_cases hc0 : count = 0
    · subst hc0
      have h0 := collect_loop_stop s hashFn hs 0 50 0 0 [] [] (by simp)
      simp [collect_post_links, h0]
    · have hpos : 0 < count := Nat.pos_of_ne_zero hc0
      have hpc := process_containers_spec hashFn hs count (s.containers 0) [] [] rfl
        (by simpa using hpos)
      simp only [collect_post_links]
      rw [show (50:Nat) = 49 + 1 from rfl, collect_loop_succ,
        if_neg (by simp; omega), if_neg (by simp [hoff 0]), hpc,
        if_pos (by simp [List.length_take]; omega)]
      have hfin : ((((fresh_links hashFn hs (s.containers 0) []).take (count - 0)).map
            (fun l => (⟨l, none⟩ : LinkEntry)))).take count
          = ((fresh_links hashFn hs (s.containers 0) []).take count).map
            (fun l => (⟨l, none⟩ : LinkEntry)) := by
        rw [Nat.sub_zero,
          List.take_of_length_le (by simp [List.length_take])]
      simp [hfin]


/-- C3 witness, the spec scenario: five visible containers of which two
are already fingerprinted, target 3: discovery returns exactly the three
not-yet-seen links in encounter order with null previews, performing zero
scroll cycles and zero attempts. -/
theorem C3_discovery_loop_witness :
    collect_post_links ⟨fun _ => [some ("a"), some ("b"), some ("c"), some ("d"),
        some ("e")], fun _ => false, fun _ => false⟩ (fun x => x) [("a"), ("b")] 3
      = ([⟨("c"), none⟩, ⟨("d"), none⟩, ⟨("e"), none⟩], 0, 0) := by
  have h := (C3_discovery_loop ⟨fun _ => [some ("a"), some ("b"), some ("c"),
      some ("d"), some ("e")], fun _ => false, fun _ => false⟩ (fun x => x)
      [("a"), ("b")] 3).2.2.2.2 (fun n => rfl) (by decide)
  exact h.trans (by decide)

/-- C9: the discovery loop always terminates with at most 50 scroll cycles
and at most 50 attempts; when every iteration throws, the attempt counter
absorbs all 50 tries (each failed iteration counts) and the empty partial
result is returned without error; and when the surface never grows, the
loop performs exactly one scroll, detects the unchanged extent, stops, and
returns the partial sequence collected before the scroll. -/
theorem C9_discovery_termination (s : ListingSurface) (hashFn : String → String)
    (hs : List String) (count : Nat) :
    (collect_post_links s hashFn hs count).2.1 ≤ 50
  ∧ (collect_post_links s hashFn hs count).2.2 ≤ 50
  ∧ ((∀ n, s.iterFails n = true) → 0 < count →
      collect_post_links s hashFn hs count = ([], 0, 50))
  ∧ ((∀ n, s.iterFails n = false) → s.heightChanged 0 = false →
      (fresh_links hashFn hs (s.containers 0) []).length < count →
      collect_post_links s hashFn hs count
        = ((fresh_links hashFn hs (s.containers 0) []).map (fun l => ⟨l, none⟩),
            1, 1)) := by
  obtain ⟨b1, b2⟩ := collect_loop_bounds s hashFn hs count 50 0 0 [] []
  refine ⟨by simpa [collect_post_links] using b1,
    by simpa [collect_post_links] using b2, ?_, ?_⟩
  · intro hf hpos
    have h := collect_loop_allfail s hashFn hs count hf 50 0 0 [] [] (by simpa using hpos)
    simp [collect_post_links, h]
  · intro hoff hheight hcnt
    have hpos : 0 < count := by omega
    have hpc := process_containers_spec hashFn hs count (s.containers 0) [] [] rfl
      (by simpa using hpos)
    have htk : (fresh_links hashFn hs (s.containers 0) []).take count
        = fresh_links hashFn hs (s.containers 0) [] :=
      List.take_of_length_le (by omega)
    simp only [List.length_nil, Nat.sub_zero, List.nil_append] at hpc
    simp only [collect_post_links]
    rw [show (50:Nat) = 49 + 1 from rfl, collect_loop_succ]
    rw [if_neg (show ¬ count ≤ ([] : List LinkEntry).length by simp; omega)]
    rw [if_neg (show ¬ s.iterFails 0 = true by simp [hoff 0])]
    rw [hpc, htk]
    rw [if_neg (show ¬ count ≤ ((fresh_links hashFn hs (s.containers 0) []).map
      (fun l => (⟨l, none⟩ : LinkEntry))).length by simp; omega)]
    rw [if_neg (show ¬ s.heightChanged 0 = true by simp [hheight])]
    dsimp only
    rw [List.take_of_length_le (by simp; omega)]

/-- C9 witness: a surface whose every iteration throws yields the empty
partial result with zero scrolls after all 50 attempts; a surface that
never grows yields the one fresh link with exactly one scroll cycle. -/
theorem C9_discovery_termination_witness :
    collect_post_links ⟨fun _ => [some ("a")], fun _ => false, fun _ => true⟩
        (fun x => x) [] 3 = ([], 0, 50)
  ∧ collect_post_links ⟨fun _ => [some ("a")], fun _ => false, fun _ => false⟩
        (fun x => x) [] 3 = ([⟨("a"), none⟩], 1, 1) := by
  have h1 := (C9_discovery_termination ⟨fun _ => [some ("a")], fun _ => false,
      fun _ => true⟩ (fun x => x) [] 3).2.2.1 (fun n => rfl) (by decide)
  have h2 := (C9_discovery_termination ⟨fun _ => [some ("a")], fun _ => false,
      fun _ => false⟩ (fun x => x) [] 3).2.2.2 (fun n => rfl) rfl (by decide)
  exact ⟨h1, h2.trans (by decide)⟩

/-- C10: every link entry produced by discovery carries a null
votes_preview, and consequently, whenever the item extractor's fallback to
the pre-observed score is taken (an unexpected error interrupts vote
extraction) for a discovered link, the resulting score signal is null. -/
theorem C10_null_preview (s : ListingSurface) (hashFn : String → String)
    (hs : List String) (count : Nat) :
    (∀ e ∈ (collect_post_links s hashFn hs count).1, e.votes_preview = none)
  ∧ (∀ e ∈ (collect_post_links s hashFn hs count).1, ∀ (now : String)
      (page : PostPage) (r : PostRecord),
      page.votes.unexpectedErr = true →
      extract_post_data e.url hashFn now page e.votes_preview = some r →
      r.votes = none) := by
  have hinv := collect_loop_inv s hashFn hs count 50 0 0 [] [] rfl
    (by intro e he; simp at he) (by simp)
  have hprev : ∀ e ∈ (collect_post_links s hashFn hs count).1,
      e.votes_preview = none := by
    intro e he
    simp only [collect_post_links] at he
    exact (hinv.1 e (List.take_subset _ _ he)).2
  refine ⟨hprev, ?_⟩
  intro e he now page r herr hex
  rw [hprev e he] at hex
  by_cases hl : page.loadFails = true
  · simp [extract_post_data, hl] at hex
  · have hl2 : page.loadFails = false := by
      cases hpf : page.loadFails
      · rfl
      · exact absurd hpf hl
    rw [extract_post_data, if_neg (by simp [hl2]), Option.some.injEq] at hex
    subst hex
    simp [extract_votes, herr]

/-- C10 witness: the single discovered link carries a null preview, and
extracting it on a page whose vote block raises an unexpected error yields
a record with a null score. -/
theorem C10_null_preview_witness :
    ((⟨("a"), none⟩ : LinkEntry) ∈ (collect_post_links ⟨fun _ => [some ("a")],
        fun _ => false, fun _ => false⟩ (fun x => x) [] 1).1
      ∧ (⟨("a"), none⟩ : LinkEntry).votes_preview = none)
  ∧ ∃ r, extract_post_data ("a") (fun x => x) ("t")
        ⟨false, none, none, ⟨true, none, none⟩, ⟨false, none⟩⟩ none = some r
      ∧ r.votes = none := by
  have hmem : (⟨("a"), none⟩ : LinkEntry) ∈ (collect_post_links
      ⟨fun _ => [some ("a")], fun _ => false, fun _ => false⟩
      (fun x => x) [] 1).1 := by decide
  have h := C10_null_preview ⟨fun _ => [some ("a")], fun _ => false, fun _ => false⟩
    (fun x => x) [] 1
  refine ⟨⟨hmem, h.1 _ hmem⟩, ?_⟩
  refine ⟨⟨("a"), ("a"), ("t"), none, none, none, [], none⟩, rfl, ?_⟩
  exact h.2 _ hmem ("t") ⟨false, none, none, ⟨true, none, none⟩, ⟨false, none⟩⟩
    ⟨("a"), ("a"), ("t"), none, none, none, [], none⟩ rfl rfl

end Reddito

namespace Reddito

/-- The ids assigned by a run of successful writes are the consecutive
integers starting at the state's counter; the final counter advances by
the number of writes, and the persisted counter equals the final counter
once at least one write happened. -/
theorem run_writes_spec :
    ∀ (posts : List PostRecord) (st : StoreState),
      (run_writes st posts).2 = List.range' st.next_id posts.length
      ∧ (run_writes st posts).1.next_id = st.next_id + posts.length
      ∧ (run_writes st posts).1.disk_next_id
          = (if posts.length = 0 then st.disk_next_id
             else some (st.next_id + posts.length)) := by
  intro posts
  induction posts with
  | nil =>
    intro st
    refine ⟨rfl, by simp [run_writes], by simp [run_writes]⟩
  | cons p ps ih =>
    intro st
    have hsave : save_post st p true
        = (⟨st.next_id + 1, add_hash st.collected_hashes p.hash,
            st.files ++ [(st.next_id, ⟨p.url, p.hash, p.scraped_at, p.title,
              p.description, p.votes, p.comments, some st.next_id⟩)],
            some (st.next_id + 1), some (add_hash st.collected_hashes p.hash)⟩,
           Except.ok st.next_id) := rfl
    obtain ⟨h1, h2, h3⟩ := ih (⟨st.next_id + 1, add_hash st.collected_hashes p.hash,
      st.files ++ [(st.next_id, ⟨p.url, p.hash, p.scraped_at, p.title,
        p.description, p.votes, p.comments, some st.next_id⟩)],
      some (st.next_id + 1), some (add_hash st.collected_hashes p.hash)⟩ : StoreState)
    simp only [run_writes, hsave]
    refine ⟨?_, ?_, ?_⟩
    · rw [h1]
      simp [List.range'_succ]
    · rw [h2]
      simp
      omega
    · rw [h3]
      by_cases hps : ps.length = 0
      · simp [hps]
      · rw [if_neg hps]
        simp only [List.length_cons]
        rw [if_neg (by omega)]
        congr 1
        omega

/-- Consecutive integer ranges are strictly increasing chains. -/
theorem chain_lt_range' : ∀ (n s : Nat),
    List.Chain' (fun a b => a < b) (List.range' s n) := by
  intro n
  induction n with
  | zero => intro s; simp [List.range']
  | succ m ih =>
    intro s
    rw [List.range'_succ]
    cases m with
    | zero => simp [List.range']
    | succ k =>
      rw [List.range'_succ]
      refine List.Chain'.cons (by omega) ?_
      have := ih (s+1)
      rwa [List.range'_succ] at this

/-- C2: across two runs against the same scope with a reload in between,
the assigned ids form the consecutive integer range starting at the
counter loaded at setup (1 when no tracker file exists), hence strictly
increasing with no gaps and no reuse; each successful write advances the
counter by exactly one and persists it, and the counter loaded by the
second setup equals the last persisted value. -/
theorem C2_monotonic_identity (idT : Option Nat) (hT : Option (List String))
    (files : List (Nat × PostRecord)) (posts1 posts2 : List PostRecord)
    (st0 st2 : StoreState) (r1 r2 : StoreState × List Nat)
    (h0 : st0 = setup_scope idT hT files)
    (h1 : r1 = run_writes st0 posts1)
    (h2 : st2 = setup_scope r1.1.disk_next_id r1.1.disk_hashes r1.1.files)
    (h3 : r2 = run_writes st2 posts2) :
    r1.2 ++ r2.2 = List.range' st0.next_id (posts1.length + posts2.length)
  ∧ List.Chain' (fun a b => a < b) (r1.2 ++ r2.2)
  ∧ (r1.2 ++ r2.2).Nodup
  ∧ st0.next_id = load_next_id idT
  ∧ (idT = none → st0.next_id = 1)
  ∧ st2.next_id = st0.next_id + posts1.length := by
  subst h0 h1 h2 h3
  obtain ⟨ha1, ha2, ha3⟩ := run_writes_spec posts1 (setup_scope idT hT files)
  have hst2 : (setup_scope
        (run_writes (setup_scope idT hT files) posts1).1.disk_next_id
        (run_writes (setup_scope idT hT files) posts1).1.disk_hashes
        (run_writes (setup_scope idT hT files) posts1).1.files).next_id
      = (setup_scope idT hT files).next_id + posts1.length := by
    have hload : (setup_scope
        (run_writes (setup_scope idT hT files) posts1).1.disk_next_id
        (run_writes (setup_scope idT hT files) posts1).1.disk_hashes
        (run_writes (setup_scope idT hT files) posts1).1.files).next_id
        = load_next_id ((run_writes (setup_scope idT hT files) posts1).1.disk_next_id) :=
      rfl
    rw [hload, ha3]
    by_cases hps : posts1.length = 0
    · simp [hps, setup_scope, load_next_id]
    · simp [hps, load_next_id]
  obtain ⟨hb1, hb2, hb3⟩ := run_writes_spec posts2 (setup_scope
    (run_writes (setup_scope idT hT files) posts1).1.disk_next_id
    (run_writes (setup_scope idT hT files) posts1).1.disk_hashes
    (run_writes (setup_scope idT hT files) posts1).1.files)
  have hids : (run_writes (setup_scope idT hT files) posts1).2
      ++ (run_writes (setup_scope
          (run_writes (setup_scope idT hT files) posts1).1.disk_next_id
          (run_writes (setup_scope idT hT files) posts1).1.disk_hashes
          (run_writes (setup_scope idT hT files) posts1).1.files) posts2).2
      = List.range' (setup_scope idT hT files).next_id
          (posts1.length + posts2.length) := by
    rw [ha1, hb1, hst2, Nat.add_comm posts1.length posts2.length]
    exact List.range'_append_1 (setup_scope idT hT files).next_id
      posts1.length posts2.length
  have hchain : List.Chain' (fun a b => a < b)
      (List.range' (setup_scope idT hT files).next_id
        (posts1.length + posts2.length)) :=
    chain_lt_range' _ _
  refine ⟨hids, hids ▸ hchain, ?_, rfl, fun h => by rw [h]; rfl, hst2⟩
  rw [hids]
  have hpw := List.chain'_iff_pairwise.mp hchain
  exact List.Pairwise.imp (fun h => Nat.ne_of_lt h) hpw

/-- C2 witness: on a fresh scope (no tracker files), a run writing one
item followed by a reload and a run writing another item assigns the ids
1 and 2 in order. -/
theorem C2_monotonic_identity_witness :
    (run_writes (setup_scope none none [])
        [⟨("u"), ("h"), ("t"), none, none, none, [], none⟩]).2
      ++ (run_writes (setup_scope
            (run_writes (setup_scope none none [])
              [⟨("u"), ("h"), ("t"), none, none, none, [], none⟩]).1.disk_next_id
            (run_writes (setup_scope none none [])
              [⟨("u"), ("h"), ("t"), none, none, none, [], none⟩]).1.disk_hashes
            (run_writes (setup_scope none none [])
              [⟨("u"), ("h"), ("t"), none, none, none, [], none⟩]).1.files)
          [⟨("u2"), ("h2"), ("t"), none, none, none, [], none⟩]).2
      = [1, 2] := by
  obtain ⟨hA, hB, hC, hD, hE, hF⟩ := C2_monotonic_identity none none []
    [⟨("u"), ("h"), ("t"), none, none, none, [], none⟩]
    [⟨("u2"), ("h2"), ("t"), none, none, none, [], none⟩]
    _ _ _ _ rfl rfl rfl rfl
  exact hA.trans (by decide)

end Reddito
